import Mathlib

/-!
Shallow embedding of `src/pawpal_system.py` (PawPal+ pet-care scheduling system),
together with proofs of the specification's claims about it.

Modelling conventions:
* Python `float` hour quantities are modelled as `ℚ` (exact arithmetic).
* Dates are modelled as `Int` day numbers; `timedelta(days = n)` is `+ n`.
* Python's `None`/empty-string truthiness on `preferred_time` is modelled
  explicitly: `none` and `some ""` are both "falsy".
* `raise ValueError(...)` is modelled as `Except String`.
* Python's stable `sorted` is modelled by `List.mergeSort` with the
  corresponding boolean "may come before" predicate (`sorted(xs)` with
  `__lt__` keeps `a` before `b` unless `b < a`; `sorted(xs, key=k)` keeps
  `a` before `b` iff `k a ≤ k b` lexicographically).
* Numeric formatting inside the human-readable log strings (`:.2f` etc.) is
  rendered with `toString` of the exact rational; no claim depends on the
  formatted digits.
-/

namespace PawPal

/-- Task: a pet-care task (`class Task`, src/pawpal_system.py lines 66-157).
Field names follow the source. `duration` is in minutes. -/
structure Task where
  name : String
  category : String
  duration : Int
  priority : Int
  preferred_time : Option String
  notes : String
  frequency : String
  completed : Bool
  due_date : Option Int
deriving Repr, DecidableEq

/-- Constant PRIORITY_MIN (line 10). -/
def PRIORITY_MIN : Int := 1

/-- Constant PRIORITY_MAX (line 11). -/
def PRIORITY_MAX : Int := 5

namespace Task

/-- Validated construction (`Task.__init__`, lines 69-101): raises on
`duration <= 0` or priority outside `[PRIORITY_MIN, PRIORITY_MAX]`; the due
date defaults to `today` for recurring tasks when absent. -/
def mk? (today : Int) (name category : String) (duration priority : Int)
    (preferred_time : Option String := none) (notes : String := "")
    (frequency : String := "once") (completed : Bool := false)
    (due_date : Option Int := none) : Except String Task :=
  if duration ≤ 0 then
    .error "Duration must be positive"
  else if ¬ (PRIORITY_MIN ≤ priority ∧ priority ≤ PRIORITY_MAX) then
    .error "Priority must be between 1 and 5"
  else
    .ok { name := name, category := category, duration := duration,
          priority := priority, preferred_time := preferred_time,
          notes := notes, frequency := frequency, completed := completed,
          due_date :=
            if due_date = none ∧ (frequency = "daily" ∨ frequency = "weekly" ∨ frequency = "monthly")
            then some today else due_date }

/-- Duration in hours (`get_duration_hours`, line 103-105): `duration / 60.0`. -/
def get_duration_hours (t : Task) : ℚ := (t.duration : ℚ) / 60

/-- Priority mutation (`set_priority`, lines 107-111): re-validates the bound. -/
def set_priority (t : Task) (priority : Int) : Except String Task :=
  if ¬ (PRIORITY_MIN ≤ priority ∧ priority ≤ PRIORITY_MAX) then
    .error "Priority must be between 1 and 5"
  else
    .ok { t with priority := priority }

/-- Completion (`mark_complete`, lines 113-115). -/
def mark_complete (t : Task) : Task := { t with completed := true }

/-- Completion (`mark_incomplete`, lines 117-119). -/
def mark_incomplete (t : Task) : Task := { t with completed := false }

/-- Completion query (`is_completed`, lines 121-123). -/
def is_completed (t : Task) : Bool := t.completed

/-- Ordering (`Task.__lt__`, lines 133-143): if priorities differ, higher
priority is "less"; otherwise shorter duration is "less". -/
def lt (a b : Task) : Bool :=
  if a.priority ≠ b.priority then
    decide (a.priority > b.priority)
  else
    decide (a.duration < b.duration)

/-- Equality (`Task.__eq__`, lines 145-157): defined over
(name, category, duration, priority, frequency) only. -/
def eqTask (a b : Task) : Bool :=
  a.name = b.name ∧ a.category = b.category ∧ a.duration = b.duration ∧
    a.priority = b.priority ∧ a.frequency = b.frequency

/-- Equal rank for the ordering: neither task sorts before the other, i.e.
equal priority and equal duration. -/
def eqRank (a b : Task) : Prop := a.priority = b.priority ∧ a.duration = b.duration

end Task

/-- Owner (`class Owner`, lines 14-38). `preferences` is a string-keyed map
whose values never influence the core algorithm; it is modelled as an
association list of opaque strings. -/
structure Owner where
  name : String
  available_hours_per_day : ℚ
  preferences : List (String × String)
deriving Repr, DecidableEq

namespace Owner

/-- Validated construction (`Owner.__init__`, lines 17-23): hours outside
[0, 24] raise. -/
def mk? (name : String) (available_hours_per_day : ℚ) : Except String Owner :=
  if available_hours_per_day < 0 ∨ available_hours_per_day > 24 then
    .error "Available hours must be between 0 and 24"
  else
    .ok { name := name, available_hours_per_day := available_hours_per_day,
          preferences := [] }

/-- Query (`get_available_time`, lines 25-27). -/
def get_available_time (o : Owner) : ℚ := o.available_hours_per_day

end Owner

/-- Pet (`class Pet`, lines 41-63). Informational only for scheduling. -/
structure Pet where
  name : String
  species : String
  age : Int
  special_needs : List String
deriving Repr, DecidableEq

/-- DailySchedule (`class DailySchedule`, lines 160-239): scheduled tasks are
(time label, task) pairs; `total_duration` is a running sum in hours. -/
structure DailySchedule where
  date : Int
  owner : Owner
  pet : Pet
  scheduled_tasks : List (String × Task)
  total_duration : ℚ
  explanation : String
deriving Repr, DecidableEq

namespace DailySchedule

/-- Construction (`DailySchedule.__init__`, lines 163-176): empty schedule;
a missing date defaults to today. -/
def init (today : Int) (schedule_date : Option Int) (owner : Owner) (pet : Pet) :
    DailySchedule :=
  { date := schedule_date.getD today, owner := owner, pet := pet,
    scheduled_tasks := [], total_duration := 0, explanation := "" }

/-- Time label used by `add_task` when no explicit time is given
(line 188-189): the task's preferred time when truthy, else "Unscheduled". -/
def defaultLabel (task : Task) : String :=
  match task.preferred_time with
  | none => "Unscheduled"
  | some "" => "Unscheduled"
  | some s => s

/-- Mutation (`add_task`, lines 178-193): appends the (time, task) pair and
adds the task's hours to the running total; always returns `true`. -/
def add_task (sched : DailySchedule) (task : Task) (time : Option String := none) :
    DailySchedule × Bool :=
  let timeLabel := match time with
    | some s => s
    | none => defaultLabel task
  ({ sched with
      scheduled_tasks := sched.scheduled_tasks ++ [(timeLabel, task)],
      total_duration := sched.total_duration + task.get_duration_hours }, true)

/-- Linear scan of `remove_task` (lines 197-203): drop the first entry whose
task compares equal to the argument; `none` when no entry matches. -/
def removeFirst (task : Task) : List (String × Task) → Option (List (String × Task))
  | [] => none
  | (tm, t) :: rest =>
    if Task.eqTask t task then some rest
    else (removeFirst task rest).map (fun l => (tm, t) :: l)

/-- Mutation (`remove_task`, lines 195-203): removes the first entry equal to
`task` (per Task equality) and decrements the total by the argument's hours;
returns whether a match was found. -/
def remove_task (sched : DailySchedule) (task : Task) : DailySchedule × Bool :=
  match removeFirst task sched.scheduled_tasks with
  | some l =>
    ({ sched with
        scheduled_tasks := l,
        total_duration := sched.total_duration - task.get_duration_hours }, true)
  | none => (sched, false)

/-- Query (`get_total_duration`, lines 205-207). -/
def get_total_duration (sched : DailySchedule) : ℚ := sched.total_duration

/-- Query (`is_feasible`, lines 209-211): total duration fits in the owner's
available time (non-strict). -/
def is_feasible (sched : DailySchedule) : Bool :=
  decide (sched.total_duration ≤ sched.owner.get_available_time)

end DailySchedule

/-- Sum of `duration/60` over the tasks currently scheduled: the quantity the
running total is claimed to track. -/
def scheduledHoursSum (entries : List (String × Task)) : ℚ :=
  (entries.map (fun e => e.2.get_duration_hours)).sum

/-- States of a `DailySchedule` reachable from the empty schedule by any
sequence of `add_task` / `remove_task` calls. -/
inductive ReachableSchedule : DailySchedule → Prop
  | init (today : Int) (d : Option Int) (o : Owner) (p : Pet) :
      ReachableSchedule (DailySchedule.init today d o p)
  | add (s : DailySchedule) (t : Task) (time : Option String) :
      ReachableSchedule s → ReachableSchedule (s.add_task t time).1
  | remove (s : DailySchedule) (t : Task) :
      ReachableSchedule s → ReachableSchedule (s.remove_task t).1

/-- Scheduler (`class Scheduler`, lines 242-547): owner, pet, the live task
collection, and the transient explanation log. -/
structure Scheduler where
  owner : Owner
  pet : Pet
  tasks : List Task
  explanation_log : List String
deriving Repr, DecidableEq

namespace Scheduler

/-- Logging helper (`_log_explanation`, lines 488-490): appends one message. -/
def logExplanation (s : Scheduler) (message : String) : Scheduler :=
  { s with explanation_log := s.explanation_log ++ [message] }

/-- Logging helper for a loop of `_log_explanation` calls over a list. -/
def logAll (s : Scheduler) (messages : List String) : Scheduler :=
  { s with explanation_log := s.explanation_log ++ messages }

/-- Query (`get_incomplete_tasks`, lines 307-313). -/
def get_incomplete_tasks (s : Scheduler) : List Task :=
  s.tasks.filter (fun t => ! t.is_completed)

/-- Query (`get_tasks_by_frequency`, lines 315-324). -/
def get_tasks_by_frequency (s : Scheduler) (frequency : String) : List Task :=
  s.tasks.filter (fun t => t.frequency = frequency)

/-- Query (`get_tasks_by_category`, lines 326-335). -/
def get_tasks_by_category (s : Scheduler) (category : String) : List Task :=
  s.tasks.filter (fun t => t.category = category)

/-- Query (`get_tasks_by_completion`, lines 337-346). -/
def get_tasks_by_completion (s : Scheduler) (completed : Bool) : List Task :=
  s.tasks.filter (fun t => t.is_completed = completed)

/-- Query (`get_completed_tasks`, lines 348-354). -/
def get_completed_tasks (s : Scheduler) : List Task :=
  s.get_tasks_by_completion true

/-- Recurrence (`complete_task`, lines 356-402): marks the given task complete;
for a recurring task builds a new incomplete instance (next due date from the
current one, or today when absent: +1 / +7 (one week) / +30 days) through the
validating constructor and appends it to the live collection. Returns the
marked original, the updated scheduler, and the new task when one was made
(`None` otherwise). The Python object mutation of the argument is modelled by
returning the marked task value. -/
def complete_task (today : Int) (s : Scheduler) (task : Task) :
    Except String (Task × Scheduler × Option Task) :=
  let marked := task.mark_complete
  if task.frequency = "daily" ∨ task.frequency = "weekly" ∨ task.frequency = "monthly" then
    let current_due := task.due_date.getD today
    let next_due : Int :=
      if task.frequency = "daily" then current_due + 1
      else if task.frequency = "weekly" then current_due + 7
      else current_due + 30
    match Task.mk? today task.name task.category task.duration task.priority
        task.preferred_time task.notes task.frequency false (some next_due) with
    | .error e => .error e
    | .ok new_task =>
      .ok (marked, { s with tasks := s.tasks ++ [new_task] }, some new_task)
  else
    .ok (marked, s, none)

/-- Comparison used by `prioritize_tasks` (line 417): Python's stable `sorted`
with `Task.__lt__` keeps `a` before `b` unless `b < a`. -/
def taskLe (a b : Task) : Bool := ! Task.lt b a

/-- Sorting (`prioritize_tasks`, lines 404-424): stable sort by the Task
ordering (priority descending, then duration ascending), with logging. -/
def prioritize_tasks (s : Scheduler) (tasks_to_sort : Option (List Task) := none) :
    Scheduler × List Task :=
  let ts := tasks_to_sort.getD s.tasks
  let sorted_tasks := ts.mergeSort taskLe
  let s₁ := s.logExplanation
    ("Sorted " ++ toString sorted_tasks.length ++ " tasks by priority and duration")
  let s₂ := match sorted_tasks with
    | [] => s₁
    | top_task :: _ =>
      s₁.logExplanation ("Highest priority: " ++ top_task.name ++
        " (Priority " ++ toString top_task.priority ++ ")")
  (s₂, sorted_tasks)

/-- Loop body of `fit_to_time_constraint` (lines 438-450): walks the sorted
list keeping a running total; a task is included iff it still fits
(non-strict), otherwise skipped. Returns the selection, the final running
total, and the per-task log lines. -/
def fitLoop (available : ℚ) : ℚ → List Task → List Task × ℚ × List String
  | total_hours, [] => ([], total_hours, [])
  | total_hours, task :: rest =>
    let task_hours := task.get_duration_hours
    if total_hours + task_hours ≤ available then
      let r := fitLoop available (total_hours + task_hours) rest
      (task :: r.1, r.2.1,
        ("✓ Included: " ++ task.name ++ " (" ++ toString task_hours ++ "h)") :: r.2.2)
    else
      let r := fitLoop available total_hours rest
      (r.1, r.2.1,
        ("✗ Skipped: " ++ task.name ++ " (would exceed time limit)") :: r.2.2)

/-- Greedy selection (`fit_to_time_constraint`, lines 426-453): runs the loop
from a zero running total against the owner's available time and logs a final
summary line. -/
def fit_to_time_constraint (s : Scheduler) (sorted_tasks : List Task) :
    Scheduler × List Task :=
  let available := s.owner.get_available_time
  let r := fitLoop available 0 sorted_tasks
  let s₁ := s.logAll r.2.2
  let s₂ := s₁.logExplanation
    ("Selected " ++ toString r.1.length ++ "/" ++ toString sorted_tasks.length ++
      " tasks (" ++ toString r.2.1 ++ "/" ++ toString available ++ " hours)")
  (s₂, r.1)

/-- Time-bucket order used by `optimize_schedule` (line 468): the dict
`{"morning": 1, "afternoon": 2, "evening": 3, None: 4, "": 4}` read with
default 4. -/
def timeOrder (preferred_time : Option String) : Nat :=
  match preferred_time with
  | some "morning" => 1
  | some "afternoon" => 2
  | some "evening" => 3
  | _ => 4

/-- Comparison used by `optimize_schedule` (lines 471-478): Python's stable
`sorted` with key `(timeOrder, -priority, duration)` keeps `a` before `b` iff
its key is lexicographically at most `b`'s. -/
def optLe (a b : Task) : Bool :=
  decide (timeOrder a.preferred_time < timeOrder b.preferred_time ∨
    (timeOrder a.preferred_time = timeOrder b.preferred_time ∧
      (b.priority < a.priority ∨
        (a.priority = b.priority ∧ a.duration ≤ b.duration))))

/-- Re-sort (`optimize_schedule`, lines 455-482): sorts the selection by time
bucket, then priority descending, then duration ascending, with logging. -/
def optimize_schedule (s : Scheduler) (selected_tasks : List Task) :
    Scheduler × List Task :=
  let optimized := selected_tasks.mergeSort optLe
  let s₁ := s.logExplanation
    "Optimized order: grouped by time (morning → afternoon → evening), then by priority"
  (s₁, optimized)

end Scheduler

/-- Bucket key of a task for conflict detection (line 520): the preferred
time when truthy, else "unscheduled". -/
def timePeriod (t : Task) : String :=
  match t.preferred_time with
  | none => "unscheduled"
  | some "" => "unscheduled"
  | some s => s

/-- Period-length table of `detect_conflicts` (lines 510-515, read at line 532
with default 24.0). -/
def periodLength (period : String) : ℚ :=
  if period = "morning" then 4
  else if period = "afternoon" then 4
  else if period = "evening" then 4
  else if period = "unscheduled" then 24
  else 24

/-- Bucket keys in first-insertion order: the iteration order of the
`time_groups` dict built at lines 518-523. -/
def bucketKeys (tasks : List Task) : List String :=
  tasks.foldl (fun ks t => if timePeriod t ∈ ks then ks else ks ++ [timePeriod t]) []

/-- Tasks of one bucket, in traversal order (lines 518-523). -/
def bucketGroup (tasks : List Task) (period : String) : List Task :=
  tasks.filter (fun t => timePeriod t = period)

/-- Total bucket hours (line 531): the sum of durations in minutes, divided
by 60. -/
def totalBucketHours (tasks : List Task) : ℚ :=
  ((tasks.map (fun t => (t.duration : ℚ))).sum) / 60

/-- Comma-joined task names (line 533). -/
def taskNames (tasks : List Task) : String :=
  String.intercalate ", " (tasks.map (fun t => t.name))

/-- The kind of warning a bucket produces. -/
inductive ConflictKind where
  | overflow
  | crowding
deriving Repr, DecidableEq

/-- Decision logic of `detect_conflicts` for one bucket (lines 526-545):
buckets with at most one task never conflict; overflow when the total hours
strictly exceed the period length; else crowding when more than 3 tasks share
a bucket other than "unscheduled". -/
def bucketConflict (period : String) (tasks : List Task) : Option ConflictKind :=
  if tasks.length ≤ 1 then none
  else if totalBucketHours tasks > periodLength period then some .overflow
  else if tasks.length > 3 ∧ period ≠ "unscheduled" then some .crowding
  else none

/-- Warning text for one bucket (lines 535-545). -/
def conflictMessage (period : String) (tasks : List Task) : ConflictKind → String
  | .overflow =>
    "⚠️  Conflict in " ++ period ++ ": " ++ toString tasks.length ++ " tasks (" ++
      toString (totalBucketHours tasks) ++ "h total) may exceed typical " ++
      toString (periodLength period) ++ "h period - " ++ taskNames tasks
  | .crowding =>
    "⚠️  Notice: " ++ toString tasks.length ++ " tasks scheduled for " ++ period ++
      " - consider spreading across periods: " ++ taskNames tasks

namespace Scheduler

/-- Conflict detection (`detect_conflicts`, lines 492-547): groups the tasks
by time period (dict insertion order) and collects the per-bucket warnings;
defaults to the incomplete tasks when no collection is given. -/
def detect_conflicts (s : Scheduler) (tasks_to_check : Option (List Task) := none) :
    List String :=
  let tasks := tasks_to_check.getD s.get_incomplete_tasks
  (bucketKeys tasks).filterMap (fun period =>
    (bucketConflict period (bucketGroup tasks period)).map
      (conflictMessage period (bucketGroup tasks period)))

/-- Orchestration (`generate_plan`, lines 258-305): reset the log, pick the
working set, prioritize, fit to the time budget, re-sort, detect conflicts,
and build a fresh `DailySchedule` holding the joined explanation. -/
def generate_plan (today : Int) (s : Scheduler) (schedule_date : Option Int := none)
    (include_completed : Bool := false) : Scheduler × DailySchedule :=
  let s₀ : Scheduler := { s with explanation_log := [] }
  let s₁ := s₀.logExplanation ("Generating schedule for " ++ s.pet.name)
  let s₂ := s₁.logExplanation
    ("Owner has " ++ toString s.owner.get_available_time ++ " hours available")
  let tasks_to_schedule := if include_completed then s.tasks else s.get_incomplete_tasks
  let completed_count := s.tasks.length - tasks_to_schedule.length
  let s₃ := s₂.logExplanation
    ("Total tasks: " ++ toString s.tasks.length ++ " (" ++ toString completed_count ++
      " completed, " ++ toString tasks_to_schedule.length ++ " to schedule)")
  let p := s₃.prioritize_tasks (some tasks_to_schedule)
  let f := p.1.fit_to_time_constraint p.2
  let o := f.1.optimize_schedule f.2
  let conflicts := o.1.detect_conflicts (some o.2)
  let s₄ :=
    if conflicts.isEmpty then
      o.1.logExplanation "✓ No scheduling conflicts detected"
    else
      (o.1.logExplanation "\n⚠️  SCHEDULING CONFLICTS DETECTED:").logAll conflicts
  let schedule₀ := DailySchedule.init today schedule_date s.owner s.pet
  let schedule₁ := o.2.foldl (fun sch t => (sch.add_task t none).1) schedule₀
  let schedule₂ :=
    { schedule₁ with explanation := String.intercalate "\n" s₄.explanation_log }
  (s₄, schedule₂)

end Scheduler

/-- Sum of `duration/60` over a plain task list. -/
def taskHoursSum (tasks : List Task) : ℚ :=
  (tasks.map Task.get_duration_hours).sum

/-- Transcription of the specification's greedy-fit sentence (spec §4.5 step
4): walk the prioritized list in order keeping a running total; include a task
iff `running + task.hours <= available` (non-strict); a task that does not fit
is skipped permanently, with no backtracking or swapping.
`GreedyFitSpec available running pending selected` relates the pending input
list to the selected output.  This definition is written from the SPEC's
words, to be compared with the source-derived `Scheduler.fit_to_time_constraint`. -/
inductive GreedyFitSpec (available : ℚ) : ℚ → List Task → List Task → Prop
  | nil (running : ℚ) : GreedyFitSpec available running [] []
  | keep (running : ℚ) (t : Task) (rest sel : List Task) :
      running + t.get_duration_hours ≤ available →
      GreedyFitSpec available (running + t.get_duration_hours) rest sel →
      GreedyFitSpec available running (t :: rest) (t :: sel)
  | skip (running : ℚ) (t : Task) (rest sel : List Task) :
      ¬ (running + t.get_duration_hours ≤ available) →
      GreedyFitSpec available running rest sel →
      GreedyFitSpec available running (t :: rest) sel

/-- Concrete owner used to instantiate theorems with hypotheses. -/
def sampleOwner : Owner :=
  { name := "Alex", available_hours_per_day := 6, preferences := [] }

/-- Concrete pet used to instantiate theorems with hypotheses. -/
def samplePet : Pet :=
  { name := "Buddy", species := "Dog", age := 5, special_needs := [] }

/-- Concrete task used to instantiate theorems with hypotheses. -/
def sampleTask : Task :=
  { name := "Morning walk", category := "walk", duration := 60, priority := 5,
    preferred_time := some "morning", notes := "", frequency := "daily",
    completed := false, due_date := some 0 }

end PawPal

open PawPal

/-- Helper characterization of `Task.lt`, shared by several claims. -/
theorem task_lt_iff (a b : Task) :
    Task.lt a b = true ↔
      (a.priority > b.priority ∨ (a.priority = b.priority ∧ a.duration < b.duration)) := by
  simp only [Task.lt]
  by_cases h : a.priority = b.priority <;> simp [h]

/-- C5: Task ordering (<) is a strict weak ordering consistent with priority
descending then duration ascending: `lt a b` holds iff `a.priority > b.priority`
or (`a.priority = b.priority` and `a.duration < b.duration`); for any two tasks
exactly one of `lt a b`, `lt b a`, equal-rank holds; and `lt` is transitive,
irreflexive, and equal-rank is transitive (strict weak ordering). -/
theorem C5_task_lt_strict_weak_order :
    (∀ a b : Task, Task.lt a b = true ↔
      (a.priority > b.priority ∨ (a.priority = b.priority ∧ a.duration < b.duration))) ∧
    (∀ a b : Task,
      (Task.lt a b = true ∨ Task.lt b a = true ∨ Task.eqRank a b) ∧
      (Task.lt a b = true → ¬ (Task.lt b a = true) ∧ ¬ Task.eqRank a b) ∧
      (Task.lt b a = true → ¬ Task.eqRank a b)) ∧
    (∀ a : Task, ¬ (Task.lt a a = true)) ∧
    (∀ a b c : Task, Task.lt a b = true → Task.lt b c = true → Task.lt a c = true) ∧
    (∀ a b c : Task, Task.eqRank a b → Task.eqRank b c → Task.eqRank a c) := by
  refine ⟨task_lt_iff, ?_, ?_, ?_, ?_⟩
  · intro a b
    simp only [task_lt_iff, Task.eqRank]
    omega
  · intro a
    simp only [task_lt_iff]
    omega
  · intro a b c
    simp only [task_lt_iff]
    omega
  · intro a b c hab hbc
    exact ⟨hab.1.trans hbc.1, hab.2.trans hbc.2⟩

/-- C6: Task equality is defined exactly over (name, category, duration,
priority, frequency): two tasks compare equal iff those five fields agree,
and changing `completed`, `due_date`, `preferred_time` or `notes` on either
side never changes the comparison. -/
theorem C6_task_eq_five_fields :
    (∀ a b : Task, Task.eqTask a b = true ↔
      (a.name = b.name ∧ a.category = b.category ∧ a.duration = b.duration ∧
        a.priority = b.priority ∧ a.frequency = b.frequency)) ∧
    (∀ a b : Task, ∀ (c₁ c₂ : Bool) (d₁ d₂ : Option Int) (p₁ p₂ : Option String)
        (n₁ n₂ : String),
      Task.eqTask { a with completed := c₁, due_date := d₁, preferred_time := p₁, notes := n₁ }
                  { b with completed := c₂, due_date := d₂, preferred_time := p₂, notes := n₂ }
        = Task.eqTask a b) := by
  constructor
  · intro a b
    simp [Task.eqTask]
  · intro a b c₁ c₂ d₁ d₂ p₁ p₂ n₁ n₂
    simp [Task.eqTask]

/-- C7: Task construction fails with a validation error iff `duration <= 0` or
priority is outside `[PRIORITY_MIN, PRIORITY_MAX] = [1,5]`, and succeeds
otherwise with the given duration and priority stored unchanged (never
clamped); `set_priority` re-validates under the same bound, failing exactly
for out-of-range values and storing in-range values unchanged. -/
theorem C7_validation_boundaries :
    (∀ (today : Int) (name category : String) (duration priority : Int)
        (pt : Option String) (notes freq : String) (comp : Bool) (dd : Option Int),
      (∃ e, Task.mk? today name category duration priority pt notes freq comp dd
          = .error e) ↔
        (duration ≤ 0 ∨ priority < PRIORITY_MIN ∨ PRIORITY_MAX < priority)) ∧
    (∀ (today : Int) (name category : String) (duration priority : Int)
        (pt : Option String) (notes freq : String) (comp : Bool) (dd : Option Int),
      (∃ t, Task.mk? today name category duration priority pt notes freq comp dd
          = .ok t ∧ t.duration = duration ∧ t.priority = priority) ↔
        (0 < duration ∧ PRIORITY_MIN ≤ priority ∧ priority ≤ PRIORITY_MAX)) ∧
    (∀ (t : Task) (p : Int),
      (∃ e, t.set_priority p = .error e) ↔ (p < PRIORITY_MIN ∨ PRIORITY_MAX < p)) ∧
    (∀ (t : Task) (p : Int),
      t.set_priority p = .ok { t with priority := p } ↔
        (PRIORITY_MIN ≤ p ∧ p ≤ PRIORITY_MAX)) := by
  refine ⟨?_, ?_, ?_, ?_⟩
  · intro today name category duration priority pt notes freq comp dd
    simp only [Task.mk?, PRIORITY_MIN, PRIORITY_MAX]
    split
    · simp; omega
    · split
      · simp; omega
      · simp; omega
  · intro today name category duration priority pt notes freq comp dd
    simp only [Task.mk?, PRIORITY_MIN, PRIORITY_MAX]
    split
    · simp; omega
    · split
      · simp; omega
      · simp; omega
  · intro t p
    simp only [Task.set_priority, PRIORITY_MIN, PRIORITY_MAX]
    split
    · simp; omega
    · simp; omega
  · intro t p
    simp only [Task.set_priority, PRIORITY_MIN, PRIORITY_MAX]
    split
    · simp; omega
    · simp; omega

/-- Helper: tasks that compare equal under `Task.eqTask` have equal hours,
because equality requires equal duration. -/
theorem eqTask_duration_hours {a b : Task} (h : Task.eqTask a b = true) :
    a.get_duration_hours = b.get_duration_hours := by
  simp only [Task.eqTask, decide_eq_true_eq] at h
  simp [Task.get_duration_hours, h.2.2.1]

/-- Helper: a successful `removeFirst` lowers the scheduled-hours sum by
exactly the argument task's hours. -/
theorem removeFirst_hours (task : Task) :
    ∀ (l l' : List (String × Task)),
      DailySchedule.removeFirst task l = some l' →
      scheduledHoursSum l' = scheduledHoursSum l - task.get_duration_hours := by
  intro l
  induction l with
  | nil => intro l' h; simp [DailySchedule.removeFirst] at h
  | cons e rest ih =>
    obtain ⟨tm, t⟩ := e
    intro l' h
    simp only [DailySchedule.removeFirst] at h
    by_cases he : Task.eqTask t task = true
    · rw [if_pos he] at h
      cases h
      have hd := eqTask_duration_hours he
      simp [scheduledHoursSum, hd]
    · rw [if_neg he, Option.map_eq_some'] at h
      obtain ⟨rest', hrest, rfl⟩ := h
      have hsum := ih rest' hrest
      simp only [scheduledHoursSum, List.map_cons, List.sum_cons] at hsum ⊢
      rw [hsum]
      ring

/-- C4: For every sequence of `add_task` / `remove_task` operations starting
from the empty schedule, `total_duration` always equals the sum of
`task.duration/60` over the tasks currently in `scheduled_tasks`. -/
theorem C4_total_duration_invariant :
    ∀ (s : DailySchedule), ReachableSchedule s →
      s.total_duration = scheduledHoursSum s.scheduled_tasks := by
  intro s h
  induction h with
  | init today d o p => simp [DailySchedule.init, scheduledHoursSum]
  | add s t time _ ih =>
    simp only [DailySchedule.add_task, scheduledHoursSum] at *
    simp [ih]
  | remove s t _ ih =>
    simp only [DailySchedule.remove_task]
    cases hrem : DailySchedule.removeFirst t s.scheduled_tasks with
    | none => simpa using ih
    | some l' =>
      have := removeFirst_hours t s.scheduled_tasks l' hrem
      simp [this, ih]

/-- Witness for C4: the invariant instantiated on a concrete reachable
schedule (empty, then one `add_task`, then one `remove_task`). -/
theorem C4_total_duration_invariant_witness :
    (((DailySchedule.init 0 none sampleOwner samplePet).add_task
        sampleTask none).1.remove_task sampleTask).1.total_duration =
      scheduledHoursSum
        (((DailySchedule.init 0 none sampleOwner samplePet).add_task
            sampleTask none).1.remove_task sampleTask).1.scheduled_tasks :=
  C4_total_duration_invariant _
    (ReachableSchedule.remove _ sampleTask
      (ReachableSchedule.add _ sampleTask none
        (ReachableSchedule.init 0 none sampleOwner samplePet)))

/-- C10: when no scheduled entry compares equal (per Task equality) to the
argument, `remove_task` returns `false` and leaves the schedule (both the
entry list and the running total) exactly unchanged. -/
theorem C10_remove_task_no_match :
    ∀ (sched : DailySchedule) (task : Task),
      (∀ e ∈ sched.scheduled_tasks, ¬ (Task.eqTask e.2 task = true)) →
      sched.remove_task task = (sched, false) := by
  intro sched task hno
  have hnone : DailySchedule.removeFirst task sched.scheduled_tasks = none := by
    have : ∀ (l : List (String × Task)),
        (∀ e ∈ l, ¬ (Task.eqTask e.2 task = true)) →
        DailySchedule.removeFirst task l = none := by
      intro l
      induction l with
      | nil => intro _; simp [DailySchedule.removeFirst]
      | cons e rest ih =>
        intro h
        simp only [DailySchedule.removeFirst]
        rw [if_neg (h e (by simp))]
        rw [ih (fun x hx => h x (by simp [hx]))]
        rfl
    exact this _ hno
  simp [DailySchedule.remove_task, hnone]

/-- Witness for C10: removing a task from the empty schedule finds no match
and changes nothing. -/
theorem C10_remove_task_no_match_witness :
    (DailySchedule.init 0 none sampleOwner samplePet).remove_task sampleTask =
      ((DailySchedule.init 0 none sampleOwner samplePet), false) :=
  C10_remove_task_no_match _ sampleTask (by simp [DailySchedule.init])

/-- Helper: the selection computed by the fit loop satisfies the spec's
greedy-fit relation. -/
theorem fitLoop_greedyFitSpec (available : ℚ) :
    ∀ (l : List Task) (running : ℚ),
      GreedyFitSpec available running l (Scheduler.fitLoop available running l).1 := by
  intro l
  induction l with
  | nil => intro running; exact GreedyFitSpec.nil running
  | cons t rest ih =>
    intro running
    simp only [Scheduler.fitLoop]
    by_cases h : running + t.get_duration_hours ≤ available
    · rw [if_pos h]
      exact GreedyFitSpec.keep running t rest _ h (ih _)
    · rw [if_neg h]
      exact GreedyFitSpec.skip running t rest _ h (ih _)

/-- Helper: the greedy-fit relation is deterministic. -/
theorem greedyFitSpec_unique {available : ℚ} :
    ∀ {running : ℚ} {l sel₁ sel₂ : List Task},
      GreedyFitSpec available running l sel₁ →
      GreedyFitSpec available running l sel₂ → sel₁ = sel₂ := by
  intro running l sel₁ sel₂ h₁
  induction h₁ generalizing sel₂ with
  | nil _ => intro h₂; cases h₂; rfl
  | keep running t rest sel hle _ ih =>
    intro h₂
    cases h₂ with
    | keep _ _ _ sel₂ _ h₂' => exact congrArg (fun x => t :: x) (ih h₂')
    | skip _ _ _ _ hn _ => exact absurd hle hn
  | skip running t rest sel hn _ ih =>
    intro h₂
    cases h₂ with
    | keep _ _ _ _ hle _ => exact absurd hle hn
    | skip _ _ _ _ _ h₂' => exact ih h₂'

/-- Helper: the fit loop's selection is an in-order subsequence of its input. -/
theorem fitLoop_sublist (available : ℚ) :
    ∀ (l : List Task) (running : ℚ),
      ((Scheduler.fitLoop available running l).1).Sublist l := by
  intro l
  induction l with
  | nil => intro running; simp [Scheduler.fitLoop]
  | cons t rest ih =>
    intro running
    simp only [Scheduler.fitLoop]
    by_cases h : running + t.get_duration_hours ≤ available
    · rw [if_pos h]
      exact List.Sublist.cons₂ t (ih _)
    · rw [if_neg h]
      exact List.Sublist.cons t (ih _)

/-- C1: `fit_to_time_constraint` walks the sorted list in order with a running
total, keeping a task iff `running + task.hours <= available` (non-strict) and
skipping it permanently otherwise: its result satisfies the spec's greedy
relation started at 0, that relation is deterministic (so the result is
exactly the in-order greedy subsequence, with no backtracking or swapping),
and the result is a subsequence of the input. -/
theorem C1_fit_to_time_constraint_greedy :
    (∀ (s : Scheduler) (sorted_tasks : List Task),
      GreedyFitSpec s.owner.get_available_time 0 sorted_tasks
        (s.fit_to_time_constraint sorted_tasks).2) ∧
    (∀ (available running : ℚ) (l sel₁ sel₂ : List Task),
      GreedyFitSpec available running l sel₁ →
      GreedyFitSpec available running l sel₂ → sel₁ = sel₂) ∧
    (∀ (s : Scheduler) (sorted_tasks : List Task),
      ((s.fit_to_time_constraint sorted_tasks).2).Sublist sorted_tasks) := by
  refine ⟨?_, ?_, ?_⟩
  · intro s sorted_tasks
    simpa [Scheduler.fit_to_time_constraint] using
      fitLoop_greedyFitSpec s.owner.get_available_time sorted_tasks 0
  · intro available running l sel₁ sel₂ h₁ h₂
    exact greedyFitSpec_unique h₁ h₂
  · intro s sorted_tasks
    simpa [Scheduler.fit_to_time_constraint] using
      fitLoop_sublist s.owner.get_available_time sorted_tasks 0

/-- Witness for C1, matching the spec's own example: a single 60-minute task
under a 6-hour owner is selected by the greedy walk; the determinism clause of
the claim is applied at that concrete run. -/
theorem C1_fit_to_time_constraint_greedy_witness :
    (Scheduler.fit_to_time_constraint
        { owner := sampleOwner, pet := samplePet, tasks := [sampleTask],
          explanation_log := [] } [sampleTask]).2 = [sampleTask] :=
  C1_fit_to_time_constraint_greedy.2.1 sampleOwner.get_available_time 0 [sampleTask]
    _ [sampleTask]
    (C1_fit_to_time_constraint_greedy.1
      { owner := sampleOwner, pet := samplePet, tasks := [sampleTask],
        explanation_log := [] } [sampleTask])
    (GreedyFitSpec.keep 0 sampleTask [] []
      (by norm_num [sampleTask, Task.get_duration_hours, sampleOwner,
        Owner.get_available_time])
      (GreedyFitSpec.nil _))

/-- C2: `detect_conflicts` groups tasks by preferred time (absent treated as
"unscheduled") and walks the buckets in first-insertion order; a bucket with
at most 1 task yields no warning; a bucket with at least 2 tasks yields an
overflow warning iff its total hours strictly exceed the period length (4.0h
for morning/afternoon/evening, 24.0h for unscheduled; exact equality is no
conflict), and otherwise yields a crowding warning iff it holds more than 3
tasks and is not "unscheduled". -/
theorem C2_detect_conflicts_buckets :
    (∀ (s : Scheduler) (tasks : List Task),
      s.detect_conflicts (some tasks) =
        (bucketKeys tasks).filterMap (fun period =>
          (bucketConflict period (bucketGroup tasks period)).map
            (conflictMessage period (bucketGroup tasks period)))) ∧
    (∀ (period : String) (g : List Task),
      g.length ≤ 1 → bucketConflict period g = none) ∧
    (∀ (period : String) (pl : ℚ) (g : List Task),
      (((period = "morning" ∨ period = "afternoon" ∨ period = "evening") ∧ pl = 4) ∨
        (period = "unscheduled" ∧ pl = 24)) →
      2 ≤ g.length →
      (bucketConflict period g = some ConflictKind.overflow ↔
        totalBucketHours g > pl) ∧
      (bucketConflict period g = some ConflictKind.crowding ↔
        (totalBucketHours g ≤ pl ∧ 3 < g.length ∧ period ≠ "unscheduled"))) := by
  refine ⟨?_, ?_, ?_⟩
  · intro s tasks
    rfl
  · intro period g hlen
    simp [bucketConflict, hlen]
  · intro period pl g hper hlen
    have hpl : periodLength period = pl := by
      rcases hper with ⟨hp, rfl⟩ | ⟨rfl, rfl⟩
      · rcases hp with rfl | rfl | rfl <;> simp [periodLength]
      · simp [periodLength]
    have hlen' : ¬ (g.length ≤ 1) := by omega
    constructor
    · simp only [bucketConflict, hpl, if_neg hlen']
      by_cases hov : totalBucketHours g > pl
      · simp [hov]
      · simp only [if_neg hov]
        constructor
        · intro h
          split at h <;> simp_all
        · intro h; exact absurd h hov
    · simp only [bucketConflict, hpl, if_neg hlen']
      by_cases hov : totalBucketHours g > pl
      · simp only [if_pos hov]
        constructor
        · intro h; simp at h
        · intro h
          exact absurd hov (not_lt.mpr h.1)
      · simp only [if_neg hov]
        by_cases hcr : 3 < g.length ∧ period ≠ "unscheduled"
        · simp only [if_pos hcr]
          constructor
          · intro _; exact ⟨not_lt.mp hov, hcr⟩
          · intro _; trivial
        · simp only [if_neg hcr]
          constructor
          · intro h; simp at h
          · intro h; exact absurd ⟨h.2.1, h.2.2⟩ hcr

/-- Witness for C2: three morning tasks of 120+120+60 minutes total 5 hours,
which strictly exceeds the 4-hour morning period, so the bucket is an
overflow conflict (the spec's own example). -/
theorem C2_detect_conflicts_buckets_witness :
    bucketConflict "morning"
        [{ sampleTask with duration := 120 }, { sampleTask with duration := 120 },
          { sampleTask with duration := 60 }] = some ConflictKind.overflow :=
  (C2_detect_conflicts_buckets.2.2 "morning" 4
      [{ sampleTask with duration := 120 }, { sampleTask with duration := 120 },
        { sampleTask with duration := 60 }]
      (Or.inl ⟨Or.inl rfl, rfl⟩) (by simp)).1.mpr
    (by norm_num [totalBucketHours, sampleTask])

/-- C3: `complete_task` marks the task complete; for a non-recurring
frequency it returns no new task and leaves the task collection unchanged;
for daily/weekly/monthly it appends exactly one new incomplete task (length
grows by 1) whose due date is the original due date (or today when absent)
plus 1, 7 or 30 days respectively, with every other field carried over. -/
theorem C3_complete_task_recurrence :
    (∀ (today : Int) (s : Scheduler) (task : Task),
      task.frequency ≠ "daily" → task.frequency ≠ "weekly" → task.frequency ≠ "monthly" →
      Scheduler.complete_task today s task = .ok (task.mark_complete, s, none)) ∧
    (∀ (today : Int) (s : Scheduler) (task : Task) (offset : Int),
      0 < task.duration → PRIORITY_MIN ≤ task.priority → task.priority ≤ PRIORITY_MAX →
      ((task.frequency = "daily" ∧ offset = 1) ∨ (task.frequency = "weekly" ∧ offset = 7) ∨
        (task.frequency = "monthly" ∧ offset = 30)) →
      Scheduler.complete_task today s task =
        .ok (task.mark_complete,
          { s with
              tasks := s.tasks ++
                [{ task with
                    completed := false,
                    due_date := some (task.due_date.getD today + offset) }] },
          some { task with
            completed := false,
            due_date := some (task.due_date.getD today + offset) }) ∧
      (s.tasks ++
        [{ task with
            completed := false,
            due_date := some (task.due_date.getD today + offset) }]).length =
        s.tasks.length + 1) := by
  constructor
  · intro today s task h1 h2 h3
    simp [Scheduler.complete_task, h1, h2, h3]
  · intro today s task offset hd hp1 hp2 hfreq
    have hdur : ¬ (task.duration ≤ 0) := not_le.mpr hd
    have hpri : PRIORITY_MIN ≤ task.priority ∧ task.priority ≤ PRIORITY_MAX := ⟨hp1, hp2⟩
    rcases hfreq with ⟨hf, rfl⟩ | ⟨hf, rfl⟩ | ⟨hf, rfl⟩ <;>
      refine ⟨?_, by simp⟩ <;>
      simp [Scheduler.complete_task, Task.mk?, hf, hdur, hpri, Task.mark_complete]

/-- Witness for C3: completing the concrete daily sample task (due on day 0)
appends one new incomplete copy due on day 1. -/
theorem C3_complete_task_recurrence_witness :
    Scheduler.complete_task 0
        { owner := sampleOwner, pet := samplePet, tasks := [sampleTask],
          explanation_log := [] } sampleTask =
      .ok (sampleTask.mark_complete,
        { owner := sampleOwner, pet := samplePet,
          tasks := [sampleTask,
            { sampleTask with completed := false, due_date := some 1 }],
          explanation_log := [] },
        some { sampleTask with completed := false, due_date := some 1 }) := by
  have h := (C3_complete_task_recurrence.2 0
      { owner := sampleOwner, pet := samplePet, tasks := [sampleTask],
        explanation_log := [] } sampleTask 1
      (by norm_num [sampleTask]) (by norm_num [sampleTask, PRIORITY_MIN])
      (by norm_num [sampleTask, PRIORITY_MAX])
      (Or.inl ⟨rfl, rfl⟩)).1
  simpa [sampleTask] using h

/-- Helper: `logExplanation` writes only the log. -/
theorem logExplanation_frame (s : Scheduler) (m : String) :
    (s.logExplanation m).tasks = s.tasks ∧ (s.logExplanation m).owner = s.owner ∧
      (s.logExplanation m).pet = s.pet :=
  ⟨rfl, rfl, rfl⟩

/-- Helper: the scheduler returned by `prioritize_tasks` differs from the
input only in the log. -/
theorem prioritize_tasks_fst_tasks (s : Scheduler) (o : Option (List Task)) :
    ((Scheduler.prioritize_tasks s o).1).tasks = s.tasks := by
  simp only [Scheduler.prioritize_tasks]
  cases (o.getD s.tasks).mergeSort Scheduler.taskLe <;> rfl

/-- Helper: `prioritize_tasks` preserves the owner. -/
theorem prioritize_tasks_fst_owner (s : Scheduler) (o : Option (List Task)) :
    ((Scheduler.prioritize_tasks s o).1).owner = s.owner := by
  simp only [Scheduler.prioritize_tasks]
  cases (o.getD s.tasks).mergeSort Scheduler.taskLe <;> rfl

/-- Helper: `prioritize_tasks` preserves the pet. -/
theorem prioritize_tasks_fst_pet (s : Scheduler) (o : Option (List Task)) :
    ((Scheduler.prioritize_tasks s o).1).pet = s.pet := by
  simp only [Scheduler.prioritize_tasks]
  cases (o.getD s.tasks).mergeSort Scheduler.taskLe <;> rfl

/-- Helper: the list returned by `prioritize_tasks` is the stable sort of its
working set. -/
theorem prioritize_tasks_snd (s : Scheduler) (o : Option (List Task)) :
    (Scheduler.prioritize_tasks s o).2 = (o.getD s.tasks).mergeSort Scheduler.taskLe := by
  simp only [Scheduler.prioritize_tasks]

/-- Helper: `fit_to_time_constraint` writes only the log in its scheduler. -/
theorem fit_fst_tasks (s : Scheduler) (l : List Task) :
    ((Scheduler.fit_to_time_constraint s l).1).tasks = s.tasks := rfl

/-- Helper: `fit_to_time_constraint` preserves the owner. -/
theorem fit_fst_owner (s : Scheduler) (l : List Task) :
    ((Scheduler.fit_to_time_constraint s l).1).owner = s.owner := rfl

/-- Helper: `fit_to_time_constraint` preserves the pet. -/
theorem fit_fst_pet (s : Scheduler) (l : List Task) :
    ((Scheduler.fit_to_time_constraint s l).1).pet = s.pet := rfl

/-- Helper: the fit selection is the loop's first component. -/
theorem fit_snd (s : Scheduler) (l : List Task) :
    (Scheduler.fit_to_time_constraint s l).2 =
      (Scheduler.fitLoop s.owner.get_available_time 0 l).1 := rfl

/-- Helper: `optimize_schedule` writes only the log in its scheduler. -/
theorem optimize_fst_tasks (s : Scheduler) (l : List Task) :
    ((Scheduler.optimize_schedule s l).1).tasks = s.tasks := rfl

/-- Helper: `optimize_schedule` preserves the owner. -/
theorem optimize_fst_owner (s : Scheduler) (l : List Task) :
    ((Scheduler.optimize_schedule s l).1).owner = s.owner := rfl

/-- Helper: `optimize_schedule` preserves the pet. -/
theorem optimize_fst_pet (s : Scheduler) (l : List Task) :
    ((Scheduler.optimize_schedule s l).1).pet = s.pet := rfl

/-- Helper: the optimized list is the stable key-sort of the selection. -/
theorem optimize_snd (s : Scheduler) (l : List Task) :
    (Scheduler.optimize_schedule s l).2 = l.mergeSort Scheduler.optLe := rfl

/-- C9: `generate_plan` never mutates the scheduler's task collection (same
list: length, membership, order, and every field of every task), nor its
owner or pet; only the explanation log (and the freshly built schedule) are
written. -/
theorem C9_generate_plan_frame :
    ∀ (today : Int) (s : Scheduler) (schedule_date : Option Int)
      (include_completed : Bool),
      ((Scheduler.generate_plan today s schedule_date include_completed).1).tasks
          = s.tasks ∧
      ((Scheduler.generate_plan today s schedule_date include_completed).1).owner
          = s.owner ∧
      ((Scheduler.generate_plan today s schedule_date include_completed).1).pet
          = s.pet ∧
      (Scheduler.generate_plan today s schedule_date include_completed).1
          = { s with explanation_log :=
                ((Scheduler.generate_plan today s schedule_date
                    include_completed).1).explanation_log } := by
  intro today s schedule_date include_completed
  have key :
      ((Scheduler.generate_plan today s schedule_date include_completed).1).tasks
          = s.tasks ∧
      ((Scheduler.generate_plan today s schedule_date include_completed).1).owner
          = s.owner ∧
      ((Scheduler.generate_plan today s schedule_date include_completed).1).pet
          = s.pet := by
    simp only [Scheduler.generate_plan]
    refine ⟨?_, ?_, ?_⟩ <;>
      simp [apply_ite Scheduler.tasks, apply_ite Scheduler.owner,
        apply_ite Scheduler.pet, Scheduler.logExplanation, Scheduler.logAll,
        optimize_fst_tasks, optimize_fst_owner, optimize_fst_pet,
        fit_fst_tasks, fit_fst_owner, fit_fst_pet,
        prioritize_tasks_fst_tasks, prioritize_tasks_fst_owner,
        prioritize_tasks_fst_pet]
  obtain ⟨ht, ho, hp⟩ := key
  refine ⟨ht, ho, hp, ?_⟩
  cases hgp : (Scheduler.generate_plan today s schedule_date include_completed).1 with
  | mk o p t l =>
    rw [hgp] at ht ho hp
    simp at ht ho hp ⊢
    exact ⟨ho, hp, ht⟩

/-- Helper: the greedy fit loop never lets the running total pass the
available time: starting at or below the budget, the selected tasks' hours
still fit. -/
theorem fitLoop_total_le (available : ℚ) :
    ∀ (l : List Task) (running : ℚ), running ≤ available →
      running + taskHoursSum (Scheduler.fitLoop available running l).1 ≤ available := by
  intro l
  induction l with
  | nil => intro r h; simpa [Scheduler.fitLoop, taskHoursSum] using h
  | cons t rest ih =>
    intro r h
    simp only [Scheduler.fitLoop]
    by_cases hc : r + t.get_duration_hours ≤ available
    · rw [if_pos hc]
      have hrec := ih (r + t.get_duration_hours) hc
      simp only [taskHoursSum, List.map_cons, List.sum_cons] at hrec ⊢
      linarith
    · rw [if_neg hc]
      exact ih r h

/-- Helper: sorting permutes a list, so its hours sum is unchanged. -/
theorem taskHoursSum_mergeSort (le : Task → Task → Bool) (l : List Task) :
    taskHoursSum (l.mergeSort le) = taskHoursSum l := by
  simp only [taskHoursSum]
  exact List.Perm.sum_eq ((List.mergeSort_perm l le).map Task.get_duration_hours)

/-- Helper: folding `add_task` accumulates exactly the tasks' hours. -/
theorem foldl_add_task_total :
    ∀ (ts : List Task) (sch : DailySchedule),
      (ts.foldl (fun sch t => (sch.add_task t none).1) sch).total_duration =
        sch.total_duration + taskHoursSum ts := by
  intro ts
  induction ts with
  | nil => intro sch; simp [taskHoursSum]
  | cons t rest ih =>
    intro sch
    simp only [List.foldl_cons]
    rw [ih]
    simp only [DailySchedule.add_task, taskHoursSum, List.map_cons, List.sum_cons]
    ring

/-- Helper: folding `add_task` never changes the schedule's owner. -/
theorem foldl_add_task_owner :
    ∀ (ts : List Task) (sch : DailySchedule),
      (ts.foldl (fun sch t => (sch.add_task t none).1) sch).owner = sch.owner := by
  intro ts
  induction ts with
  | nil => intro sch; rfl
  | cons t rest ih =>
    intro sch
    simp only [List.foldl_cons]
    rw [ih]
    rfl

/-- C8: the schedule returned by `generate_plan` is always feasible: every
scheduled task passed the greedy fit check, so the total hours never exceed
the owner's available hours (for any owner with a nonnegative budget, which
owner construction guarantees), whatever the working set was. -/
theorem C8_generate_plan_feasible :
    ∀ (today : Int) (s : Scheduler) (schedule_date : Option Int)
      (include_completed : Bool),
      0 ≤ s.owner.available_hours_per_day →
      ((Scheduler.generate_plan today s schedule_date
          include_completed).2).is_feasible = true := by
  intro today s d inc h0
  simp only [Scheduler.generate_plan, DailySchedule.is_feasible,
    decide_eq_true_eq]
  rw [foldl_add_task_total, foldl_add_task_owner]
  simp only [DailySchedule.init, optimize_snd, fit_snd, prioritize_tasks_fst_owner,
    taskHoursSum_mergeSort, Owner.get_available_time, zero_add]
  have := fitLoop_total_le s.owner.available_hours_per_day
    ((Scheduler.prioritize_tasks
        { s with explanation_log :=
            ["Generating schedule for " ++ s.pet.name,
             "Owner has " ++ toString s.owner.get_available_time ++ " hours available",
             "Total tasks: " ++ toString s.tasks.length ++ " (" ++
               toString (s.tasks.length -
                 (if inc then s.tasks else s.get_incomplete_tasks).length) ++
               " completed, " ++
               toString (if inc then s.tasks else s.get_incomplete_tasks).length ++
               " to schedule)"] }
        (some (if inc then s.tasks else s.get_incomplete_tasks))).2) 0 h0
  simpa using this

/-- Witness for C8: the concrete sample scheduler (6-hour owner, one 60-minute
task) produces a feasible schedule. -/
theorem C8_generate_plan_feasible_witness :
    0 ≤ sampleOwner.available_hours_per_day ∧
    ((Scheduler.generate_plan 0
        { owner := sampleOwner, pet := samplePet, tasks := [sampleTask],
          explanation_log := [] } none false).2).is_feasible = true :=
  ⟨by norm_num [sampleOwner],
   C8_generate_plan_feasible 0
     { owner := sampleOwner, pet := samplePet, tasks := [sampleTask],
       explanation_log := [] } none false (by norm_num [sampleOwner])⟩

/-- Witness for C5: transitivity applied at three concrete tasks of
priorities 5, 4, 3. -/
theorem C5_task_lt_strict_weak_order_witness :
    Task.lt { sampleTask with priority := 5 } { sampleTask with priority := 3 } = true :=
  C5_task_lt_strict_weak_order.2.2.2.1 { sampleTask with priority := 5 }
    { sampleTask with priority := 4 } { sampleTask with priority := 3 }
    (by decide) (by decide)
